import Mathlib

/-!
# users/cmd/app/main.go: the bootstrap sequence of the users service

A shallow embedding of `main` (src/users/cmd/app/main.go).  The function is a
straight sequence of calls into the Go standard library and the MongoDB driver.
The calls whose results `main` branches on, or whose values it passes on, are
answered by a `World` (environment, driver, HTTP stack, router); everything
`main` itself decides (flag defaults, credential override, the order of the
steps, the fatal exits, the deferred calls, the server fields) is written out
below, statement by statement.
-/

namespace app

/-! ## Go values -/

/-- A non-nil Go `error`, identified with its message. -/
abbrev Err := String

/-- The type `time.Duration`: a count of nanoseconds. -/
abbrev Duration := Int

def time.Nanosecond : Duration := 1
def time.Microsecond : Duration := 1000 * time.Nanosecond
def time.Millisecond : Duration := 1000 * time.Microsecond
def time.Second : Duration := 1000 * time.Millisecond
def time.Minute : Duration := 60 * time.Second

/-! ## Package flag -/

/-- A value held by a command-line flag, after type coercion. -/
inductive FlagValue where
  | str (s : String)
  | int (i : Int)
  | bool (b : Bool)
  deriving DecidableEq, Repr

/-- A registered flag with its current value and its default. -/
structure Flag where
  Name : String
  Value : FlagValue
  DefValue : FlagValue
  deriving DecidableEq, Repr

/-- The set of registered flags, in registration order. -/
abbrev FlagSet := List Flag

/-- Range of the Go type `int` on a 64-bit platform. -/
def inInt64 (i : Int) : Bool := decide (-(2 : Int) ^ 63 ≤ i) && decide (i < (2 : Int) ^ 63)

/-- Whether a value can be stored in a flag holding `cur`: same type, and an
integer must fit the Go type `int`. -/
def FlagValue.accepts (cur v : FlagValue) : Bool :=
  match cur, v with
  | .str _, .str _ => true
  | .int _, .int i => inInt64 i
  | .bool _, .bool _ => true
  | _, _ => false

/-- Registration of a string flag, as in `flag.String(name, value, usage)`. -/
def flagString (fs : FlagSet) (name value : String) : FlagSet :=
  fs ++ [{ Name := name, Value := .str value, DefValue := .str value }]

/-- Registration of an integer flag, as in `flag.Int(name, value, usage)`. -/
def flagInt (fs : FlagSet) (name : String) (value : Int) : FlagSet :=
  fs ++ [{ Name := name, Value := .int value, DefValue := .int value }]

/-- Registration of a boolean flag, as in `flag.Bool(name, value, usage)`. -/
def flagBool (fs : FlagSet) (name : String) (value : Bool) : FlagSet :=
  fs ++ [{ Name := name, Value := .bool value, DefValue := .bool value }]

/-- Storing one parsed occurrence `-name=v`: fails when the flag is not
registered or the value does not fit the flag. -/
def flagSet : FlagSet → String → FlagValue → Option FlagSet
  | [], _, _ => none
  | f :: fs, name, v =>
    if f.Name = name then
      if f.Value.accepts v then some ({ f with Value := v } :: fs) else none
    else
      (flagSet fs name v).map (fun fs' => f :: fs')

/-- The effect of `flag.Parse()` on the occurrences found on the command line,
taken left to right; `none` is a parse failure. -/
def flagParse : FlagSet → List (String × FlagValue) → Option FlagSet
  | fs, [] => some fs
  | fs, (name, v) :: rest =>
    match flagSet fs name v with
    | none => none
    | some fs' => flagParse fs' rest

/-- Current value of a flag, by name. -/
def flagLookup : FlagSet → String → Option FlagValue
  | [], _ => none
  | f :: fs, name => if f.Name = name then some f.Value else flagLookup fs name

/-- Dereference of the pointer returned by `flagString`. -/
def derefString (fs : FlagSet) (name : String) : String :=
  match flagLookup fs name with
  | some (.str s) => s
  | _ => ""

/-- Dereference of the pointer returned by `flagInt`. -/
def derefInt (fs : FlagSet) (name : String) : Int :=
  match flagLookup fs name with
  | some (.int i) => i
  | _ => 0

/-- Dereference of the pointer returned by `flagBool`. -/
def derefBool (fs : FlagSet) (name : String) : Bool :=
  match flagLookup fs name with
  | some (.bool b) => b
  | _ => false

/-- The five flags that `main` defines (main.go lines 26-30), with their defaults. -/
def commandLine : FlagSet :=
  flagBool
    (flagString
      (flagString
        (flagInt
          (flagString [] "serverAddr" "")
          "serverPort" 4000)
        "mongoURI" "mongo://localhost:27017")
      "mongoDB" "users")
    "enableCreds" false

/-- The settings `main` reads through the flag pointers after `flag.Parse()`. -/
structure Settings where
  serverAddress : String
  serverPort : Int
  mongoURI : String
  mongoDatabase : String
  enableCreds : Bool
  deriving DecidableEq, Repr

/-- The values behind the five flag pointers. -/
def readSettings (fs : FlagSet) : Settings :=
  { serverAddress := derefString fs "serverAddr"
    serverPort := derefInt fs "serverPort"
    mongoURI := derefString fs "mongoURI"
    mongoDatabase := derefString fs "mongoDB"
    enableCreds := derefBool fs "enableCreds" }

/-- Lines 26-31 of main.go: define the flags, parse, read the pointers. -/
def parseFlags (args : List (String × FlagValue)) : Option Settings :=
  (flagParse commandLine args).map readSettings

/-! ## Package fmt -/

/-- An operand of `fmt.Sprintf`. -/
inductive Arg where
  | str (s : String)
  | int (i : Int)
  deriving DecidableEq, Repr

/-- Rendering of one operand under one verb (`%s`, `%d`, `%v`); a verb that
does not fit the operand yields the bad-verb marker of package fmt. -/
def fmt.verb (v : Char) (a : Arg) : List Char :=
  match a with
  | .str s =>
    if v = 's' ∨ v = 'v' then s.data
    else '%' :: '!' :: v :: ("(string=" ++ s ++ ")").data
  | .int i =>
    if v = 'd' ∨ v = 'v' then (toString i).data
    else '%' :: '!' :: v :: ("(int=" ++ toString i ++ ")").data

/-- The format interpreter of `fmt.Sprintf`, for plain verbs without flags or
width: literal text is copied, `%%` is a percent sign, every other verb
consumes one operand. -/
def fmt.format : List Char → List Arg → List Char
  | [], _ => []
  | c :: cs, as =>
    if c = '%' then
      match cs, as with
      | [], _ => "%!(NOVERB)".data
      | v :: cs', [] =>
        if v = '%' then '%' :: fmt.format cs' []
        else '%' :: '!' :: v :: ("(MISSING)".data ++ fmt.format cs' [])
      | v :: cs', a :: as' =>
        if v = '%' then '%' :: fmt.format cs' (a :: as')
        else fmt.verb v a ++ fmt.format cs' as'
    else c :: fmt.format cs as

/-- The function `fmt.Sprintf(format, args...)`. -/
def fmt.Sprintf (format : String) (args : List Arg) : String :=
  String.mk (fmt.format format.data args)

/-- The function `fmt.Sprint(err)` for an error value that may be nil. -/
def fmt.Sprint (err : Option Err) : String :=
  match err with
  | none => "<nil>"
  | some e => e

/-! ## Package log -/

def log.Ldate : Nat := 1
def log.Ltime : Nat := 2
def log.Lshortfile : Nat := 16

/-- A `*log.Logger` writing to standard output. -/
structure Logger where
  pfx : String
  flags : Nat
  deriving DecidableEq, Repr

/-- The call `log.New(os.Stdout, pfx, flags)`. -/
def log.New (pfx : String) (flags : Nat) : Logger := { pfx := pfx, flags := flags }

/-! ## MongoDB driver values -/

/-- The struct `options.Credential`. -/
structure Credential where
  AuthMechanism : String := ""
  AuthMechanismProperties : List (String × String) := []
  AuthSource : String := ""
  Username : String := ""
  Password : String := ""
  PasswordSet : Bool := false
  deriving DecidableEq, Repr

/-- The part of `options.ClientOptions` that `main` touches (`Auth`), together
with what `ApplyURI` recorded from the connection string. -/
structure ClientOptions where
  Hosts : List String
  Auth : Option Credential
  uriErr : Option Err
  deriving DecidableEq, Repr

/-- A `*mongo.Client`, built from a configuration. -/
structure Client where
  opts : ClientOptions
  deriving DecidableEq, Repr

/-- A `*mongo.Database` handle. -/
structure Database where
  client : Client
  name : String
  deriving DecidableEq, Repr

/-- A `*mongo.Collection` handle. -/
structure Collection where
  db : Database
  name : String
  deriving DecidableEq, Repr

/-- The method `client.Database(name)`: a handle, no round trip. -/
def clientDatabase (c : Client) (name : String) : Database := { client := c, name := name }

/-- The method `db.Collection(name)`: a handle, no round trip. -/
def databaseCollection (db : Database) (name : String) : Collection := { db := db, name := name }

/-- The struct `mongo.UserModel` of the models package. -/
structure UserModel where
  C : Collection
  deriving DecidableEq, Repr

/-- The struct `application` (main.go lines 17-21). -/
structure application where
  errLog : Logger
  infoLog : Logger
  users : UserModel
  deriving DecidableEq, Repr

/-- A context with a deadline, as returned by `context.WithTimeout`. -/
structure Context where
  timeout : Duration
  deriving DecidableEq, Repr

/-- The call `context.WithTimeout(context.Background(), d)`. -/
def context.WithTimeout (d : Duration) : Context := { timeout := d }

/-- An `http.Handler`, as returned by the router. -/
structure Handler where
  id : Nat
  deriving DecidableEq, Repr

/-- The fields of `http.Server` that `main` sets (main.go lines 78-85). -/
structure Server where
  Addr : String
  ErrorLog : Logger
  Handler : Handler
  IdleTimeout : Duration
  ReadTimeout : Duration
  WriteTimeout : Duration
  deriving DecidableEq, Repr

/-! ## The outside world -/

/-- The answers of everything outside `main`. -/
structure World where
  /-- The process environment. -/
  env : String → Option String
  /-- The configuration `options.Client().ApplyURI(uri)`. -/
  applyURI : String → ClientOptions
  /-- The error returned by `mDB.NewClient(c)`, or nil. -/
  newClient : ClientOptions → Option Err
  /-- The error returned by `client.Connect(ctx)`, or nil. -/
  connect : Client → Context → Option Err
  /-- The error returned by `client.Disconnect(ctx)`, or nil. -/
  disconnect : Client → Context → Option Err
  /-- The handler returned by `app.routes()`. -/
  routes : application → Handler
  /-- What `srv.ListenAndServe()` does: `none` when it never returns,
  `some e` when it returns the error value `e` (possibly nil). -/
  listenAndServe : Server → Option (Option Err)

/-- The function `os.Getenv`: the value, or the empty string when unset. -/
def os.Getenv (w : World) (key : String) : String := (w.env key).getD ""

/-! ## Observable steps of a run -/

/-- One observable step of a run of `main`. -/
inductive Event where
  | getenv (key : String)
  | applyURI (uri : String)
  | newClient (c : ClientOptions)
  | withTimeout (d : Duration)
  | connect (ctx : Context)
  | disconnect (ctx : Context)
  | cancel
  | printf (l : Logger) (msg : String)
  | fatal (l : Logger) (msg : String)
  | database (name : String)
  | collection (db : String) (name : String)
  | routes
  | newServer (srv : Server)
  | listenAndServe (srv : Server)
  | usage
  | goPanic (msg : String)
  deriving DecidableEq, Repr

/-- A function call registered with `defer`. -/
inductive Deferred where
  | cancel
  | disconnect (client : Client) (ctx : Context)
  deriving DecidableEq, Repr

/-- How the body of `main` stops. -/
inductive Ending where
  /-- The body ran to its end or executed `return`. -/
  | returned
  /-- The body panicked. -/
  | panicked (v : Err)
  /-- The body called `os.Exit(code)`. -/
  | exited (code : Int)
  /-- The body is blocked in `ListenAndServe`, which never returns. -/
  | serving
  deriving DecidableEq, Repr

/-- The state of a run when the body of `main` stops. -/
structure Run where
  trace : List Event
  /-- The deferred calls, most recent first. -/
  defers : List Deferred
  ending : Ending
  config : Option ClientOptions
  ctx : Option Context
  app : Option application
  srv : Option Server
  deriving DecidableEq, Repr

/-- The call `l.Fatal(err)`: print, then `os.Exit(1)`. -/
def Logger.Fatal (l : Logger) (err : Option Err) (r : Run) : Run :=
  { r with trace := r.trace ++ [.fatal l (fmt.Sprint err)], ending := .exited 1 }

/-- The final state of the process. -/
inductive Status where
  | exit (code : Int)
  | running
  deriving DecidableEq, Repr

/-- A finished (or forever serving) run. -/
structure Final where
  trace : List Event
  status : Status
  run : Option Run
  deriving DecidableEq, Repr

/-! ## The function main -/

/-- The logger `infoLog` (main.go line 34). -/
def infoLog : Logger := log.New "INFO\t" (log.Ldate ||| log.Ltime)

/-- The logger `errLog` (main.go line 35). -/
def errLog : Logger := log.New "ERROR\t" (log.Ldate ||| log.Ltime ||| log.Lshortfile)

/-- Lines 37-44 of main.go: the client configuration, and the steps taken to
build it.  With `enableCreds` the field `Auth` is overwritten by a fresh
credential holding the two environment values; without it nothing is read. -/
def clientConfig (w : World) (s : Settings) : ClientOptions × List Event :=
  let c := w.applyURI s.mongoURI
  if s.enableCreds then
    ({ c with Auth := some { Username := os.Getenv w "MONGODB_USERNAME"
                             Password := os.Getenv w "MONGODB_PASSWORD" } },
      [.applyURI s.mongoURI, .getenv "MONGODB_USERNAME", .getenv "MONGODB_PASSWORD"])
  else
    (c, [.applyURI s.mongoURI])

/-- Lines 76-85 of main.go: the server address and the `http.Server` value. -/
def serverURI (s : Settings) : String :=
  fmt.Sprintf "%s:%d" [.str s.serverAddress, .int s.serverPort]

/-- The `http.Server` literal of main.go lines 78-85. -/
def newServer (s : Settings) (h : Handler) : Server :=
  { Addr := serverURI s
    ErrorLog := errLog
    Handler := h
    IdleTimeout := time.Minute
    ReadTimeout := 5 * time.Second
    WriteTimeout := 10 * time.Second }

/-- The body of `main` after `flag.Parse()` (main.go lines 33-89), up to the
point where it stops: a fatal exit, or `ListenAndServe` blocking forever. -/
def mainBody (w : World) (s : Settings) : Run :=
  -- c := options.Client().ApplyURI(*mongoURI); if *enableCreds { c.Auth = ... }
  let c := (clientConfig w s).1
  let r0 : Run :=
    { trace := (clientConfig w s).2 ++ [.newClient c], defers := [], ending := .returned
      config := some c, ctx := none, app := none, srv := none }
  -- client, err := mDB.NewClient(c); if err != nil { errLog.Fatal(err) }
  match w.newClient c with
  | some err => errLog.Fatal (some err) r0
  | none =>
    let client : Client := { opts := c }
    -- ctx, cancel := context.WithTimeout(context.Background(), 20*time.Second)
    let ctx := context.WithTimeout (20 * time.Second)
    -- defer cancel()
    let r1 : Run :=
      { r0 with trace := r0.trace ++ [.withTimeout (20 * time.Second), .connect ctx]
                defers := [.cancel], ctx := some ctx }
    -- err = client.Connect(ctx); if err != nil { errLog.Fatal(err) }
    match w.connect client ctx with
    | some err => errLog.Fatal (some err) r1
    | none =>
      -- defer func() { if err = client.Disconnect(ctx); err != nil { panic(err) } }()
      -- infoLog.Printf("Database connection established")
      let db := clientDatabase client s.mongoDatabase
      let a : application :=
        { infoLog := infoLog, errLog := errLog
          users := { C := databaseCollection db "users" } }
      let h := w.routes a
      let srv := newServer s h
      let r2 : Run :=
        { r1 with
          trace := r1.trace ++
            [.printf infoLog (fmt.Sprintf "Database connection established" []),
             .database s.mongoDatabase, .collection s.mongoDatabase "users",
             .routes, .newServer srv,
             .printf infoLog (fmt.Sprintf "Starting server on %s" [.str (serverURI s)]),
             .listenAndServe srv]
          defers := .disconnect client ctx :: r1.defers
          app := some a, srv := some srv }
      -- err = srv.ListenAndServe(); errLog.Fatal(err)
      match w.listenAndServe srv with
      | none => { r2 with ending := .serving }
      | some err => errLog.Fatal err r2

/-- Running the deferred calls, most recent first.  The deferred closure of
main.go lines 59-63 panics when `Disconnect` returns an error; a panic raised
by a deferred call replaces the pending one. -/
def runDeferred (w : World) : List Deferred → List Event × Option Err → List Event × Option Err
  | [], st => st
  | .cancel :: rest, (tr, p) => runDeferred w rest (tr ++ [.cancel], p)
  | .disconnect client ctx :: rest, (tr, p) =>
    match w.disconnect client ctx with
    | none => runDeferred w rest (tr ++ [.disconnect ctx], p)
    | some err => runDeferred w rest (tr ++ [.disconnect ctx, .goPanic err], some err)

/-- What the Go runtime does when the body of `main` stops: `os.Exit` ends the
process at once, without running deferred calls; a return or a panic runs the
deferred calls first, then the process exits with status 0, or 2 when a panic
is pending. -/
def finish (w : World) (r : Run) : Final :=
  match r.ending with
  | .exited code => { trace := r.trace, status := .exit code, run := some r }
  | .serving => { trace := r.trace, status := .running, run := some r }
  | .returned =>
    match runDeferred w r.defers (r.trace, none) with
    | (tr, none) => { trace := tr, status := .exit 0, run := some r }
    | (tr, some _) => { trace := tr, status := .exit 2, run := some r }
  | .panicked v =>
    match runDeferred w r.defers (r.trace ++ [.goPanic v], some v) with
    | (tr, _) => { trace := tr, status := .exit 2, run := some r }

/-- The function `main`: a malformed command line ends the process inside
`flag.Parse()` with the usage message and status 2; otherwise the body runs. -/
def main (w : World) (args : List (String × FlagValue)) : Final :=
  match parseFlags args with
  | none => { trace := [.usage], status := .exit 2, run := none }
  | some s => finish w (mainBody w s)

/-! ## Reading a run -/

/-- Whether `ListenAndServe` was called in a trace. -/
def calledListenAndServe (tr : List Event) : Bool :=
  tr.any (fun e => match e with | .listenAndServe _ => true | _ => false)

/-- Whether an `http.Server` was constructed in a trace. -/
def builtServer (tr : List Event) : Bool :=
  tr.any (fun e => match e with | .newServer _ => true | _ => false)

/-- Whether `Disconnect` was called in a trace. -/
def calledDisconnect (tr : List Event) : Bool :=
  tr.any (fun e => match e with | .disconnect _ => true | _ => false)

/-- Whether an environment variable was read in a trace. -/
def readEnv (tr : List Event) : Bool :=
  tr.any (fun e => match e with | .getenv _ => true | _ => false)

/-- Whether a trace ends with a fatal message on the error logger. -/
def endsInFatal (tr : List Event) : Bool :=
  match tr.getLast? with
  | some (.fatal l _) => decide (l = errLog)
  | _ => false

/-- The error returned by `mDB.NewClient(c)` in the run with settings `s`. -/
def newClientErr (w : World) (s : Settings) : Option Err :=
  w.newClient (clientConfig w s).1

/-- The client of the run with settings `s`. -/
def theClient (w : World) (s : Settings) : Client := { opts := (clientConfig w s).1 }

/-- The context `main` passes to `Connect`. -/
def connectCtx : Context := context.WithTimeout (20 * time.Second)

/-- The error returned by `client.Connect(ctx)` in the run with settings `s`. -/
def connectErr (w : World) (s : Settings) : Option Err :=
  w.connect (theClient w s) connectCtx

/-- The application context of the run with settings `s`. -/
def theApp (w : World) (s : Settings) : application :=
  { infoLog := infoLog, errLog := errLog
    users := { C := databaseCollection (clientDatabase (theClient w s) s.mongoDatabase) "users" } }

/-- The server of the run with settings `s`. -/
def theServer (w : World) (s : Settings) : Server := newServer s (w.routes (theApp w s))

/-- What `srv.ListenAndServe()` does in the run with settings `s`. -/
def serveResult (w : World) (s : Settings) : Option (Option Err) :=
  w.listenAndServe (theServer w s)

/-- The server of a finished run, when one was built. -/
def Final.srv (f : Final) : Option Server := f.run.bind Run.srv

/-- The application context of a finished run, when one was built. -/
def Final.app (f : Final) : Option application := f.run.bind Run.app

/-- The deferred calls registered in a finished run. -/
def Final.defers (f : Final) : List Deferred :=
  match f.run with
  | some r => r.defers
  | none => []

/-! ## A concrete world, for evaluation -/

/-- Splitting a text at the first occurrence of a character. -/
def cutAt (c : Char) : List Char → Option (List Char × List Char)
  | [] => none
  | x :: xs => if x = c then some ([], xs) else (cutAt c xs).map (fun p => (x :: p.1, p.2))

/-- A small reading of a connection string, after the driver: the scheme must
be `mongodb`; the text between `//` and an at-sign, when there is one, is
`user:password`, and is stored as the credential of the configuration. -/
def sampleApplyURI (uri : String) : ClientOptions :=
  match cutAt '/' uri.data with
  | some (scheme, '/' :: rest) =>
    if scheme = "mongodb:".data then
      match cutAt '@' rest with
      | none => { Hosts := [String.mk rest], Auth := none, uriErr := none }
      | some (userinfo, hosts) =>
        match cutAt ':' userinfo with
        | some (u, p) =>
          { Hosts := [String.mk hosts]
            Auth := some { Username := String.mk u, Password := String.mk p, PasswordSet := true }
            uriErr := none }
        | none =>
          { Hosts := [String.mk hosts]
            Auth := some { Username := String.mk userinfo }
            uriErr := none }
    else { Hosts := [], Auth := none, uriErr := some "scheme must be \"mongodb\" or \"mongodb+srv\"" }
  | _ => { Hosts := [], Auth := none, uriErr := some "error parsing uri" }

/-- A world in which every call succeeds and `ListenAndServe` returns an error
(the port is taken). -/
def sampleWorld : World :=
  { env := fun k =>
      if k = "MONGODB_USERNAME" then some "alice"
      else if k = "MONGODB_PASSWORD" then some " s3cret " else none
    applyURI := sampleApplyURI
    newClient := fun c => c.uriErr
    connect := fun _ _ => none
    disconnect := fun _ _ => none
    routes := fun _ => { id := 0 }
    listenAndServe := fun srv =>
      some (some ("listen tcp " ++ srv.Addr ++ ": bind: address already in use")) }

/-- The sample world with a database that does not answer within the deadline. -/
def timeoutWorld : World :=
  { sampleWorld with connect := fun _ _ => some "context deadline exceeded" }

/-- The sample world with an empty environment. -/
def emptyEnvWorld : World := { sampleWorld with env := fun _ => none }

/-! ## Definitions used by the statements -/

/-- The trace up to and including the call of `ListenAndServe`. -/
def serveTrace (w : World) (s : Settings) : List Event :=
  (clientConfig w s).2 ++
    [.newClient (clientConfig w s).1, .withTimeout (20 * time.Second), .connect connectCtx,
     .printf infoLog (fmt.Sprintf "Database connection established" []),
     .database s.mongoDatabase, .collection s.mongoDatabase "users",
     .routes, .newServer (theServer w s),
     .printf infoLog (fmt.Sprintf "Starting server on %s" [.str (serverURI s)]),
     .listenAndServe (theServer w s)]

/-- The command line used in the evaluations: a well-formed connection string. -/
def sampleArgs : List (String × FlagValue) := [("mongoURI", .str "mongodb://localhost:27017")]

/-- The settings parsed from `sampleArgs`. -/
def sampleSettings : Settings :=
  { serverAddress := "", serverPort := 4000, mongoURI := "mongodb://localhost:27017"
    mongoDatabase := "users", enableCreds := false }

/-- The command line that turns credentials on. -/
def credsArgs : List (String × FlagValue) :=
  [("mongoURI", .str "mongodb://localhost:27017"), ("enableCreds", .bool true)]

/-- The settings parsed from `credsArgs`. -/
def credsSettings : Settings := { sampleSettings with enableCreds := true }

/-- The command line with a credential inside the connection string and
credentials turned on. -/
def uriCredsArgs : List (String × FlagValue) :=
  [("mongoURI", .str "mongodb://bob:pw@localhost:27017"), ("enableCreds", .bool true)]

/-- The settings parsed from `uriCredsArgs`. -/
def uriCredsSettings : Settings :=
  { sampleSettings with mongoURI := "mongodb://bob:pw@localhost:27017", enableCreds := true }

/-- The command line with a credential inside the connection string and
credentials left off. -/
def uriArgs : List (String × FlagValue) :=
  [("mongoURI", .str "mongodb://bob:pw@localhost:27017")]

/-- The settings parsed from `uriArgs`. -/
def uriSettings : Settings :=
  { sampleSettings with mongoURI := "mongodb://bob:pw@localhost:27017" }

/-- A command line that names another database. -/
def dbArgs : List (String × FlagValue) :=
  [("mongoURI", .str "mongodb://localhost:27017"), ("mongoDB", .str "staging")]

/-- The settings parsed from `dbArgs`. -/
def dbSettings : Settings := { sampleSettings with mongoDatabase := "staging" }

/-- Whether a panic was raised in a trace. -/
def raisedPanic (tr : List Event) : Bool :=
  tr.any (fun e => match e with | .goPanic _ => true | _ => false)

/-- Whether a disconnect is among the deferred calls. -/
def registeredDisconnect (ds : List Deferred) : Bool :=
  ds.any (fun d => match d with | .disconnect _ _ => true | _ => false)

/-- A world in which `ListenAndServe` returns nil. -/
def nilServeWorld : World := { sampleWorld with listenAndServe := fun _ => some none }

/-- The flag set in which the five flags hold the values of `s`. -/
def flagsOf (s : Settings) : FlagSet :=
  [ { Name := "serverAddr", Value := .str s.serverAddress, DefValue := .str "" },
    { Name := "serverPort", Value := .int s.serverPort, DefValue := .int 4000 },
    { Name := "mongoURI", Value := .str s.mongoURI, DefValue := .str "mongo://localhost:27017" },
    { Name := "mongoDB", Value := .str s.mongoDatabase, DefValue := .str "users" },
    { Name := "enableCreds", Value := .bool s.enableCreds, DefValue := .bool false } ]

/-- The settings after storing one occurrence. -/
def store (s : Settings) (n : String) (v : FlagValue) : Settings :=
  match v with
  | .str x =>
    if n = "serverAddr" then { s with serverAddress := x }
    else if n = "mongoURI" then { s with mongoURI := x }
    else if n = "mongoDB" then { s with mongoDatabase := x }
    else s
  | .int i => if n = "serverPort" then { s with serverPort := i } else s
  | .bool b => if n = "enableCreds" then { s with enableCreds := b } else s

/-- A well-formed occurrence of one of the five flags of the specification:
`-serverAddr`, `-mongoURI` and `-mongoDB` take a string, `-serverPort` an
integer of the machine, `-enableCreds` a boolean. -/
def validOccurrence (a : String × FlagValue) : Bool :=
  match a.2 with
  | .str _ => decide (a.1 = "serverAddr" ∨ a.1 = "mongoURI" ∨ a.1 = "mongoDB")
  | .int i => decide (a.1 = "serverPort") && inInt64 i
  | .bool _ => decide (a.1 = "enableCreds")

/-- The string supplied for a flag on the command line: the last occurrence
of the flag, if there is one. -/
def suppliedString : List (String × FlagValue) → String → Option String
  | [], _ => none
  | (n, v) :: rest, name =>
    match suppliedString rest name with
    | some x => some x
    | none =>
      match v with
      | .str x => if n = name then some x else none
      | _ => none

/-- The integer supplied for a flag on the command line, if there is one. -/
def suppliedInt : List (String × FlagValue) → String → Option Int
  | [], _ => none
  | (n, v) :: rest, name =>
    match suppliedInt rest name with
    | some x => some x
    | none =>
      match v with
      | .int x => if n = name then some x else none
      | _ => none

/-- The boolean supplied for a flag on the command line, if there is one. -/
def suppliedBool : List (String × FlagValue) → String → Option Bool
  | [], _ => none
  | (n, v) :: rest, name =>
    match suppliedBool rest name with
    | some x => some x
    | none =>
      match v with
      | .bool x => if n = name then some x else none
      | _ => none

/-- A command line that supplies the port twice and the database once. -/
def mixedArgs : List (String × FlagValue) :=
  [("serverPort", .int 8080), ("mongoDB", .str "staging"), ("serverPort", .int 9090)]

/-! ## The shape of a run -/

/-- The run when `NewClient` fails. -/
theorem mainBody_newClient_err (w : World) (s : Settings) (e : Err)
    (h : newClientErr w s = some e) :
    mainBody w s =
      { trace := (clientConfig w s).2 ++ [.newClient (clientConfig w s).1, .fatal errLog e]
        defers := [], ending := .exited 1
        config := some (clientConfig w s).1, ctx := none, app := none, srv := none } := by
  unfold newClientErr at h
  simp [mainBody, h, Logger.Fatal, fmt.Sprint]

/-- The run when `NewClient` succeeds and `Connect` fails. -/
theorem mainBody_connect_err (w : World) (s : Settings) (e : Err)
    (h1 : newClientErr w s = none) (h2 : connectErr w s = some e) :
    mainBody w s =
      { trace := (clientConfig w s).2 ++
          [.newClient (clientConfig w s).1, .withTimeout (20 * time.Second), .connect connectCtx,
           .fatal errLog e]
        defers := [.cancel], ending := .exited 1
        config := some (clientConfig w s).1, ctx := some connectCtx, app := none, srv := none } := by
  unfold newClientErr at h1
  unfold connectErr theClient connectCtx at h2
  simp [mainBody, h1, h2, Logger.Fatal, fmt.Sprint, connectCtx]

/-- The run when the connection is established and `ListenAndServe` returns. -/
theorem mainBody_serve_returns (w : World) (s : Settings) (e : Option Err)
    (h1 : newClientErr w s = none) (h2 : connectErr w s = none)
    (h3 : serveResult w s = some e) :
    mainBody w s =
      { trace := serveTrace w s ++ [.fatal errLog (fmt.Sprint e)]
        defers := [.disconnect (theClient w s) connectCtx, .cancel], ending := .exited 1
        config := some (clientConfig w s).1, ctx := some connectCtx
        app := some (theApp w s), srv := some (theServer w s) } := by
  unfold newClientErr at h1
  unfold connectErr theClient connectCtx at h2
  unfold serveResult theServer theApp theClient at h3
  simp [mainBody, h1, h2, h3, Logger.Fatal, serveTrace, connectCtx, theServer, theApp, theClient]

/-- The run when the connection is established and `ListenAndServe` blocks. -/
theorem mainBody_serving (w : World) (s : Settings)
    (h1 : newClientErr w s = none) (h2 : connectErr w s = none)
    (h3 : serveResult w s = none) :
    mainBody w s =
      { trace := serveTrace w s
        defers := [.disconnect (theClient w s) connectCtx, .cancel], ending := .serving
        config := some (clientConfig w s).1, ctx := some connectCtx
        app := some (theApp w s), srv := some (theServer w s) } := by
  unfold newClientErr at h1
  unfold connectErr theClient connectCtx at h2
  unfold serveResult theServer theApp theClient at h3
  simp [mainBody, h1, h2, h3, serveTrace, connectCtx, theServer, theApp, theClient]

/-- The body of `main` never returns and never panics: it stops in `os.Exit(1)`
or stays in `ListenAndServe`. -/
theorem mainBody_ending (w : World) (s : Settings) :
    (mainBody w s).ending = .exited 1 ∨ (mainBody w s).ending = .serving := by
  cases h1 : newClientErr w s with
  | some e => rw [mainBody_newClient_err w s e h1]; exact Or.inl rfl
  | none =>
    cases h2 : connectErr w s with
    | some e => rw [mainBody_connect_err w s e h1 h2]; exact Or.inl rfl
    | none =>
      cases h3 : serveResult w s with
      | some e => rw [mainBody_serve_returns w s e h1 h2 h3]; exact Or.inl rfl
      | none => rw [mainBody_serving w s h1 h2 h3]; exact Or.inr rfl

/-- No deferred call runs: the trace of the process is the trace of the body. -/
theorem finish_mainBody (w : World) (s : Settings) :
    (finish w (mainBody w s)).trace = (mainBody w s).trace ∧
    (finish w (mainBody w s)).run = some (mainBody w s) ∧
    (finish w (mainBody w s)).status =
      (match (mainBody w s).ending with
       | .serving => Status.running
       | _ => Status.exit 1) := by
  rcases mainBody_ending w s with h | h <;> simp [finish, h]

/-- The run of `main` on a well-formed command line. -/
theorem main_of_parse (w : World) (args : List (String × FlagValue)) (s : Settings)
    (hs : parseFlags args = some s) : main w args = finish w (mainBody w s) := by
  simp [main, hs]

/-- The run of `main` on a malformed command line. -/
theorem main_of_parse_fail (w : World) (args : List (String × FlagValue))
    (hs : parseFlags args = none) :
    main w args = { trace := [.usage], status := .exit 2, run := none } := by
  simp [main, hs]

/-- The steps of building the configuration contain no call of the driver
beyond `ApplyURI`, and no server step. -/
theorem clientConfig_trace (w : World) (s : Settings) :
    (clientConfig w s).2 =
      if s.enableCreds then
        [.applyURI s.mongoURI, .getenv "MONGODB_USERNAME", .getenv "MONGODB_PASSWORD"]
      else [.applyURI s.mongoURI] := by
  unfold clientConfig
  split <;> rfl

/-- The five ways a run of `main` can go. -/
theorem main_cases (w : World) (args : List (String × FlagValue)) :
    (parseFlags args = none ∧
      main w args = { trace := [.usage], status := .exit 2, run := none }) ∨
    (∃ s e, parseFlags args = some s ∧ newClientErr w s = some e ∧
      (main w args).trace =
        (clientConfig w s).2 ++ [.newClient (clientConfig w s).1, .fatal errLog e] ∧
      (main w args).status = .exit 1 ∧ (main w args).srv = none ∧
      (main w args).app = none ∧ (main w args).defers = []) ∨
    (∃ s e, parseFlags args = some s ∧ newClientErr w s = none ∧ connectErr w s = some e ∧
      (main w args).trace =
        (clientConfig w s).2 ++
          [.newClient (clientConfig w s).1, .withTimeout (20 * time.Second),
           .connect connectCtx, .fatal errLog e] ∧
      (main w args).status = .exit 1 ∧ (main w args).srv = none ∧
      (main w args).app = none ∧ (main w args).defers = [.cancel]) ∨
    (∃ s e, parseFlags args = some s ∧ newClientErr w s = none ∧ connectErr w s = none ∧
      serveResult w s = some e ∧
      (main w args).trace = serveTrace w s ++ [.fatal errLog (fmt.Sprint e)] ∧
      (main w args).status = .exit 1 ∧ (main w args).srv = some (theServer w s) ∧
      (main w args).app = some (theApp w s) ∧
      (main w args).defers = [.disconnect (theClient w s) connectCtx, .cancel]) ∨
    (∃ s, parseFlags args = some s ∧ newClientErr w s = none ∧ connectErr w s = none ∧
      serveResult w s = none ∧
      (main w args).trace = serveTrace w s ∧
      (main w args).status = .running ∧ (main w args).srv = some (theServer w s) ∧
      (main w args).app = some (theApp w s) ∧
      (main w args).defers = [.disconnect (theClient w s) connectCtx, .cancel]) := by
  cases hs : parseFlags args with
  | none => exact Or.inl ⟨rfl, main_of_parse_fail w args hs⟩
  | some s =>
    right
    have hm := main_of_parse w args s hs
    cases h1 : newClientErr w s with
    | some e =>
      left
      refine ⟨s, e, rfl, h1, ?_⟩
      rw [hm, mainBody_newClient_err w s e h1]
      simp [finish, Final.srv, Final.app, Final.defers]
    | none =>
      right
      cases h2 : connectErr w s with
      | some e =>
        left
        refine ⟨s, e, rfl, h1, h2, ?_⟩
        rw [hm, mainBody_connect_err w s e h1 h2]
        simp [finish, Final.srv, Final.app, Final.defers]
      | none =>
        right
        cases h3 : serveResult w s with
        | some e =>
          left
          refine ⟨s, e, rfl, h1, h2, h3, ?_⟩
          rw [hm, mainBody_serve_returns w s e h1 h2 h3]
          simp [finish, Final.srv, Final.app, Final.defers]
        | none =>
          right
          refine ⟨s, rfl, h1, h2, h3, ?_⟩
          rw [hm, mainBody_serving w s h1 h2 h3]
          simp [finish, Final.srv, Final.app, Final.defers]

/-- The configuration steps contain no server step, no `Disconnect` and no fatal message. -/
theorem clientConfig_trace_plain (w : World) (s : Settings) :
    builtServer (clientConfig w s).2 = false ∧
    calledListenAndServe (clientConfig w s).2 = false ∧
    calledDisconnect (clientConfig w s).2 = false := by
  rw [clientConfig_trace]
  split <;> simp [builtServer, calledListenAndServe, calledDisconnect]

/-- A trace that ends with a fatal message on `errLog`. -/
theorem endsInFatal_append (tr : List Event) (m : String) :
    endsInFatal (tr ++ [.fatal errLog m]) = true := by
  simp [endsInFatal]

/-- Membership in the configuration steps. -/
theorem mem_clientConfig_trace (w : World) (s : Settings) (e : Event)
    (h : e ∈ (clientConfig w s).2) :
    e = .applyURI s.mongoURI ∨
      (s.enableCreds = true ∧ (e = .getenv "MONGODB_USERNAME" ∨ e = .getenv "MONGODB_PASSWORD")) := by
  rw [clientConfig_trace] at h
  split at h
  · rename_i hc
    simp at h
    rcases h with h | h | h
    · exact Or.inl h
    · exact Or.inr ⟨hc, Or.inl h⟩
    · exact Or.inr ⟨hc, Or.inr h⟩
  · simp at h
    exact Or.inl h

/-- The steps of a run up to the call of `ListenAndServe` contain no
`Disconnect`, no panic and no fatal message. -/
theorem serveTrace_plain (w : World) (s : Settings) :
    calledDisconnect (serveTrace w s) = false ∧
    calledListenAndServe (serveTrace w s) = true ∧
    builtServer (serveTrace w s) = true := by
  have h := clientConfig_trace_plain w s
  simp [serveTrace, calledDisconnect, calledListenAndServe, builtServer] at h ⊢
  exact h.2.2

/-! ## Claims -/

/-- C1 (fail-fast ordering): on every command line and in every world, when
building the client or connecting returns an error the run ends with a fatal
message on the error logger and exit status 1, no `http.Server` is built and
`ListenAndServe` is not called; and whenever `ListenAndServe` is called, the
flags were parsed and both `NewClient` and `Connect` had returned nil. -/
theorem C1_fail_fast_ordering (w : World) (args : List (String × FlagValue)) :
    (∀ s, parseFlags args = some s →
      (newClientErr w s ≠ none ∨ connectErr w s ≠ none) →
        (main w args).status = .exit 1 ∧ endsInFatal (main w args).trace = true ∧
        builtServer (main w args).trace = false ∧
        calledListenAndServe (main w args).trace = false ∧
        (main w args).srv = none) ∧
    (calledListenAndServe (main w args).trace = true →
      ∃ s, parseFlags args = some s ∧ newClientErr w s = none ∧ connectErr w s = none) := by
  rcases main_cases w args with ⟨hs, hm⟩ | ⟨s, e, hs, h1, ht, hst, hsrv, -, -⟩ |
    ⟨s, e, hs, h1, h2, ht, hst, hsrv, -, -⟩ | ⟨s, e, hs, h1, h2, h3, ht, hst, hsrv, -, -⟩ |
    ⟨s, hs, h1, h2, h3, ht, hst, hsrv, -, -⟩
  · refine ⟨fun s hs' => by simp [hs] at hs', fun h => ?_⟩
    simp [hm, calledListenAndServe] at h
  · have hp := clientConfig_trace_plain w s
    have hl : calledListenAndServe (main w args).trace = false := by
      rw [ht]; simpa [calledListenAndServe] using hp.2.1
    refine ⟨fun s' hs' _ => ?_, fun h => ?_⟩
    · refine ⟨hst, ?_, ?_, hl, hsrv⟩
      · rw [ht]
        have := endsInFatal_append ((clientConfig w s).2 ++ [.newClient (clientConfig w s).1]) e
        simpa using this
      · rw [ht]; simpa [builtServer] using hp.1
    · rw [hl] at h; exact absurd h (by simp)
  · have hp := clientConfig_trace_plain w s
    have hl : calledListenAndServe (main w args).trace = false := by
      rw [ht]; simpa [calledListenAndServe] using hp.2.1
    refine ⟨fun s' hs' _ => ?_, fun h => ?_⟩
    · refine ⟨hst, ?_, ?_, hl, hsrv⟩
      · rw [ht]
        have := endsInFatal_append ((clientConfig w s).2 ++
          [.newClient (clientConfig w s).1, .withTimeout (20 * time.Second),
           .connect connectCtx]) e
        simpa using this
      · rw [ht]; simpa [builtServer] using hp.1
    · rw [hl] at h; exact absurd h (by simp)
  · refine ⟨fun s' hs' herr => ?_, fun _ => ⟨s, hs, h1, h2⟩⟩
    rw [hs] at hs'
    cases hs'
    rcases herr with herr | herr
    · exact absurd h1 herr
    · exact absurd h2 herr
  · refine ⟨fun s' hs' herr => ?_, fun _ => ⟨s, hs, h1, h2⟩⟩
    rw [hs] at hs'
    cases hs'
    rcases herr with herr | herr
    · exact absurd h1 herr
    · exact absurd h2 herr

/-- C1 at a database that does not answer within the deadline: `Connect`
returns an error, the run ends in a fatal exit and no server is started. -/
theorem C1_fail_fast_ordering_witness :
    parseFlags sampleArgs = some sampleSettings ∧
    connectErr timeoutWorld sampleSettings = some "context deadline exceeded" ∧
    ((main timeoutWorld sampleArgs).status = .exit 1 ∧
      endsInFatal (main timeoutWorld sampleArgs).trace = true ∧
      builtServer (main timeoutWorld sampleArgs).trace = false ∧
      calledListenAndServe (main timeoutWorld sampleArgs).trace = false ∧
      (main timeoutWorld sampleArgs).srv = none) :=
  ⟨by decide, by decide,
    (C1_fail_fast_ordering timeoutWorld sampleArgs).1 sampleSettings (by decide)
      (Or.inr (by decide))⟩

/-- The address format `%s:%d` applied to a string and an integer. -/
theorem Sprintf_addr (a : String) (p : Int) :
    fmt.Sprintf "%s:%d" [.str a, .int p] = a ++ ":" ++ toString p := by
  apply String.ext
  simp [fmt.Sprintf, fmt.format, fmt.verb]

/-- The log format of the start message applied to a string. -/
theorem Sprintf_starting (a : String) :
    fmt.Sprintf "Starting server on %s" [.str a] = "Starting server on " ++ a := by
  apply String.ext
  simp [fmt.Sprintf, fmt.format, fmt.verb]

/-- C2: on every run that builds the server, its `Addr` is the address flag,
a colon and the decimal rendering of the port flag, and the message
`Starting server on` reports that same string. -/
theorem C2_server_addr (w : World) (args : List (String × FlagValue)) (s : Settings)
    (srv : Server) (hs : parseFlags args = some s) (hsrv : (main w args).srv = some srv) :
    srv.Addr = s.serverAddress ++ ":" ++ toString s.serverPort ∧
    Event.printf infoLog ("Starting server on " ++ srv.Addr) ∈ (main w args).trace ∧
    Event.listenAndServe srv ∈ (main w args).trace := by
  have haddr : (theServer w s).Addr = s.serverAddress ++ ":" ++ toString s.serverPort := by
    simp [theServer, newServer, serverURI, Sprintf_addr]
  have hmem : Event.printf infoLog ("Starting server on " ++ (theServer w s).Addr) ∈ serveTrace w s ∧
      Event.listenAndServe (theServer w s) ∈ serveTrace w s := by
    constructor
    · simp [serveTrace, Sprintf_starting, theServer, newServer]
    · simp [serveTrace]
  rcases main_cases w args with ⟨hs0, hm⟩ | ⟨s0, e, hs0, h1, ht, hst, hsrv0, -, -⟩ |
    ⟨s0, e, hs0, h1, h2, ht, hst, hsrv0, -, -⟩ | ⟨s0, e, hs0, h1, h2, h3, ht, hst, hsrv0, -, -⟩ |
    ⟨s0, hs0, h1, h2, h3, ht, hst, hsrv0, -, -⟩
  · rw [hs0] at hs; cases hs
  · rw [hsrv0] at hsrv; cases hsrv
  · rw [hsrv0] at hsrv; cases hsrv
  · rw [hs0] at hs; cases hs
    rw [hsrv0] at hsrv; cases hsrv
    refine ⟨haddr, ?_, ?_⟩
    · rw [ht]; exact List.mem_append_left _ hmem.1
    · rw [ht]; exact List.mem_append_left _ hmem.2
  · rw [hs0] at hs; cases hs
    rw [hsrv0] at hsrv; cases hsrv
    rw [ht]
    exact ⟨haddr, hmem.1, hmem.2⟩

/-- C2 at the default address and port: the server listens on `:4000`. -/
theorem C2_server_addr_witness :
    parseFlags sampleArgs = some sampleSettings ∧
    (main sampleWorld sampleArgs).srv = some (theServer sampleWorld sampleSettings) ∧
    (theServer sampleWorld sampleSettings).Addr = ":4000" ∧
    ((theServer sampleWorld sampleSettings).Addr =
        sampleSettings.serverAddress ++ ":" ++ toString sampleSettings.serverPort ∧
      Event.printf infoLog ("Starting server on " ++ (theServer sampleWorld sampleSettings).Addr) ∈
        (main sampleWorld sampleArgs).trace ∧
      Event.listenAndServe (theServer sampleWorld sampleSettings) ∈
        (main sampleWorld sampleArgs).trace) :=
  ⟨by decide, by decide, by decide,
    C2_server_addr sampleWorld sampleArgs sampleSettings (theServer sampleWorld sampleSettings)
      (by decide) (by decide)⟩

/-- On a well-formed command line `NewClient` is called, once, with the
configuration built by lines 37-44. -/
theorem newClient_call (w : World) (args : List (String × FlagValue)) (s : Settings)
    (hs : parseFlags args = some s) (c : ClientOptions) :
    Event.newClient c ∈ (main w args).trace ↔ c = (clientConfig w s).1 := by
  have hcfg : ∀ c, Event.newClient c ∉ (clientConfig w s).2 := by
    intro c hc
    rcases mem_clientConfig_trace w s _ hc with h | ⟨_, h | h⟩ <;> cases h
  rcases main_cases w args with ⟨hs0, hm⟩ | ⟨s0, e, hs0, h1, ht, -⟩ |
    ⟨s0, e, hs0, h1, h2, ht, -⟩ | ⟨s0, e, hs0, h1, h2, h3, ht, -⟩ |
    ⟨s0, hs0, h1, h2, h3, ht, -⟩
  · rw [hs0] at hs; cases hs
  all_goals
    rw [hs0] at hs; cases hs
    rw [ht]
    simp [serveTrace, hcfg]

/-- On a well-formed command line the environment is read exactly when
`enableCreds` is set. -/
theorem readEnv_iff (w : World) (args : List (String × FlagValue)) (s : Settings)
    (hs : parseFlags args = some s) :
    readEnv (main w args).trace = s.enableCreds := by
  have hcfg : readEnv (clientConfig w s).2 = s.enableCreds := by
    rw [clientConfig_trace]
    cases s.enableCreds <;> simp [readEnv]
  rcases main_cases w args with ⟨hs0, hm⟩ | ⟨s0, e, hs0, h1, ht, -⟩ |
    ⟨s0, e, hs0, h1, h2, ht, -⟩ | ⟨s0, e, hs0, h1, h2, h3, ht, -⟩ |
    ⟨s0, hs0, h1, h2, h3, ht, -⟩
  · rw [hs0] at hs; cases hs
  all_goals
    rw [hs0] at hs; cases hs
    rw [ht, ← hcfg]
    simp [serveTrace, readEnv]

/-- C3: with `enableCreds` set and both variables present in the environment,
the configuration passed to `NewClient` carries a credential whose `Username`
and `Password` are the two environment values, character for character. -/
theorem C3_creds_from_env (w : World) (args : List (String × FlagValue)) (s : Settings)
    (u p : String) (hs : parseFlags args = some s) (he : s.enableCreds = true)
    (hu : w.env "MONGODB_USERNAME" = some u) (hp : w.env "MONGODB_PASSWORD" = some p) :
    (∃ c, Event.newClient c ∈ (main w args).trace) ∧
    ∀ c, Event.newClient c ∈ (main w args).trace →
      ∃ cred, c.Auth = some cred ∧ cred.Username = u ∧ cred.Password = p := by
  refine ⟨⟨_, (newClient_call w args s hs _).2 rfl⟩, fun c hc => ?_⟩
  rw [(newClient_call w args s hs c).1 hc]
  simp [clientConfig, he, os.Getenv, hu, hp]

/-- C3 in the sample world: the password keeps its surrounding blanks. -/
theorem C3_creds_from_env_witness :
    parseFlags credsArgs = some credsSettings ∧
    sampleWorld.env "MONGODB_USERNAME" = some "alice" ∧
    sampleWorld.env "MONGODB_PASSWORD" = some " s3cret " ∧
    ((∃ c, Event.newClient c ∈ (main sampleWorld credsArgs).trace) ∧
      ∀ c, Event.newClient c ∈ (main sampleWorld credsArgs).trace →
        ∃ cred, c.Auth = some cred ∧ cred.Username = "alice" ∧ cred.Password = " s3cret ") :=
  ⟨by decide, by decide, by decide,
    C3_creds_from_env sampleWorld credsArgs credsSettings "alice" " s3cret "
      (by decide) (by decide) (by decide) (by decide)⟩

/-- C10: with `enableCreds` set, whatever `ApplyURI` produced and whatever the
environment holds, the credential of the configuration passed to `NewClient`
is a fresh one: `Username` and `Password` are the values of the two variables,
the empty string for a variable that is unset, and every other field is zero;
the remaining fields of the configuration are those of `ApplyURI`. -/
theorem C10_creds_override (w : World) (args : List (String × FlagValue)) (s : Settings)
    (hs : parseFlags args = some s) (he : s.enableCreds = true) :
    (∃ c, Event.newClient c ∈ (main w args).trace) ∧
    ∀ c, Event.newClient c ∈ (main w args).trace →
      c.Auth = some
        { AuthMechanism := "", AuthMechanismProperties := [], AuthSource := ""
          Username := (w.env "MONGODB_USERNAME").getD ""
          Password := (w.env "MONGODB_PASSWORD").getD ""
          PasswordSet := false } ∧
      (w.env "MONGODB_USERNAME" = none → (c.Auth.map Credential.Username) = some "") ∧
      (w.env "MONGODB_PASSWORD" = none → (c.Auth.map Credential.Password) = some "") ∧
      c.Hosts = (w.applyURI s.mongoURI).Hosts ∧ c.uriErr = (w.applyURI s.mongoURI).uriErr := by
  refine ⟨⟨_, (newClient_call w args s hs _).2 rfl⟩, fun c hc => ?_⟩
  rw [(newClient_call w args s hs c).1 hc]
  refine ⟨by simp [clientConfig, he, os.Getenv], fun hu => ?_, fun hp => ?_, ?_, ?_⟩
  · simp [clientConfig, he, os.Getenv, hu]
  · simp [clientConfig, he, os.Getenv, hp]
  · simp [clientConfig, he]
  · simp [clientConfig, he]

/-- C10 with an empty environment and a connection string that carries a
credential: the credential of the connection string is gone, and the one
attached has empty fields. -/
theorem C10_creds_override_witness :
    parseFlags uriCredsArgs = some uriCredsSettings ∧
    (emptyEnvWorld.applyURI uriCredsSettings.mongoURI).Auth =
      some { Username := "bob", Password := "pw", PasswordSet := true } ∧
    ∀ c, Event.newClient c ∈ (main emptyEnvWorld uriCredsArgs).trace →
      c.Auth = some { Username := "", Password := "" } :=
  ⟨by decide, by decide, fun c hc =>
    ((C10_creds_override emptyEnvWorld uriCredsArgs uriCredsSettings (by decide) (by decide)).2
      c hc).1⟩

/-- C4 as stated fails: with `enableCreds` false and a connection string that
carries `bob:pw`, no environment variable is read, yet the configuration
passed to `NewClient` has a credential attached (the one `ApplyURI` stored). -/
theorem C4_counterexample :
    parseFlags uriArgs = some uriSettings ∧ uriSettings.enableCreds = false ∧
    readEnv (main sampleWorld uriArgs).trace = false ∧
    Event.newClient
      { Hosts := ["localhost:27017"]
        Auth := some { Username := "bob", Password := "pw", PasswordSet := true }
        uriErr := none } ∈ (main sampleWorld uriArgs).trace ∧
    ¬ (∀ c, Event.newClient c ∈ (main sampleWorld uriArgs).trace → c.Auth = none) := by
  refine ⟨by decide, by decide, by decide, by decide, fun h => ?_⟩
  have := h _ ((newClient_call sampleWorld uriArgs uriSettings (by decide) _).2 rfl)
  revert this
  decide

/-- The body of `main` does not depend on the environment when `enableCreds`
is false. -/
theorem mainBody_env_irrelevant (w : World) (s : Settings) (env' : String → Option String)
    (he : s.enableCreds = false) :
    mainBody { w with env := env' } s = mainBody w s := by
  simp [mainBody, clientConfig, he]

/-- C4, amended: with `enableCreds` false `main` reads no environment variable
and attaches no credential of its own: the configuration passed to `NewClient`
is exactly the one `ApplyURI` built, so its credential is the one of the
connection string, if any; and a run in a world that differs only in its
environment is the same run, with the same configuration. -/
theorem C4_no_env_no_attach (w : World) (args : List (String × FlagValue)) (s : Settings)
    (hs : parseFlags args = some s) (he : s.enableCreds = false) :
    readEnv (main w args).trace = false ∧
    (∀ k, Event.getenv k ∉ (main w args).trace) ∧
    (∀ c, Event.newClient c ∈ (main w args).trace ↔ c = w.applyURI s.mongoURI) ∧
    (∀ env', main { w with env := env' } args = main w args) := by
  have hr := readEnv_iff w args s hs
  rw [he] at hr
  refine ⟨hr, fun k hk => ?_, fun c => ?_, fun env' => ?_⟩
  · have : readEnv (main w args).trace = true := by
      unfold readEnv
      rw [List.any_eq_true]
      exact ⟨_, hk, rfl⟩
    rw [hr] at this
    cases this
  · rw [newClient_call w args s hs c]
    simp [clientConfig, he]
  · rw [main_of_parse _ args s hs, main_of_parse w args s hs,
      mainBody_env_irrelevant w s env' he]
    rcases mainBody_ending w s with h | h <;> simp [finish, h]

/-- C4, amended, in the sample world: nothing is read from the environment and
the run with an empty environment is the same run. -/
theorem C4_no_env_no_attach_witness :
    parseFlags uriArgs = some uriSettings ∧ uriSettings.enableCreds = false ∧
    (readEnv (main sampleWorld uriArgs).trace = false ∧
      (∀ k, Event.getenv k ∉ (main sampleWorld uriArgs).trace) ∧
      (∀ c, Event.newClient c ∈ (main sampleWorld uriArgs).trace ↔
        c = sampleWorld.applyURI uriSettings.mongoURI) ∧
      (∀ env', main { sampleWorld with env := env' } uriArgs = main sampleWorld uriArgs)) :=
  ⟨by decide, by decide,
    C4_no_env_no_attach sampleWorld uriArgs uriSettings (by decide) (by decide)⟩

/-- C5: on every run in which the connection is established, the users model
of the application context holds the collection handle obtained from the
database named by `-mongoDB` and the collection named `users`. -/
theorem C5_users_collection (w : World) (args : List (String × FlagValue)) (s : Settings)
    (hs : parseFlags args = some s) (h1 : newClientErr w s = none)
    (h2 : connectErr w s = none) :
    ∃ a, (main w args).app = some a ∧
      a.users.C = databaseCollection (clientDatabase (theClient w s) s.mongoDatabase) "users" ∧
      a.users.C.name = "users" ∧ a.users.C.db.name = s.mongoDatabase ∧
      Event.database s.mongoDatabase ∈ (main w args).trace ∧
      Event.collection s.mongoDatabase "users" ∈ (main w args).trace := by
  have hmem : Event.database s.mongoDatabase ∈ serveTrace w s ∧
      Event.collection s.mongoDatabase "users" ∈ serveTrace w s := by
    constructor <;> simp [serveTrace]
  rcases main_cases w args with ⟨hs0, hm⟩ | ⟨s0, e, hs0, h1', -⟩ |
    ⟨s0, e, hs0, -, h2', -⟩ | ⟨s0, e, hs0, -, -, -, ht, -, -, happ, -⟩ |
    ⟨s0, hs0, -, -, -, ht, -, -, happ, -⟩
  · rw [hs0] at hs; cases hs
  · rw [hs0] at hs; cases hs
    rw [h1] at h1'; cases h1'
  · rw [hs0] at hs; cases hs
    rw [h2] at h2'; cases h2'
  · rw [hs0] at hs; cases hs
    refine ⟨theApp w s, happ, rfl, rfl, rfl, ?_, ?_⟩
    · rw [ht]; exact List.mem_append_left _ hmem.1
    · rw [ht]; exact List.mem_append_left _ hmem.2
  · rw [hs0] at hs; cases hs
    rw [ht]
    exact ⟨theApp w s, happ, rfl, rfl, rfl, hmem.1, hmem.2⟩

/-- C5 with `-mongoDB staging`: the handle is `staging` / `users`. -/
theorem C5_users_collection_witness :
    parseFlags dbArgs = some dbSettings ∧
    newClientErr sampleWorld dbSettings = none ∧ connectErr sampleWorld dbSettings = none ∧
    ∃ a, (main sampleWorld dbArgs).app = some a ∧
      a.users.C =
        databaseCollection (clientDatabase (theClient sampleWorld dbSettings) "staging") "users" ∧
      a.users.C.name = "users" ∧ a.users.C.db.name = "staging" ∧
      Event.database "staging" ∈ (main sampleWorld dbArgs).trace ∧
      Event.collection "staging" "users" ∈ (main sampleWorld dbArgs).trace :=
  ⟨by decide, by decide, by decide,
    C5_users_collection sampleWorld dbArgs dbSettings (by decide) (by decide) (by decide)⟩

/-- The configuration steps raise no panic. -/
theorem clientConfig_no_panic (w : World) (s : Settings) :
    raisedPanic (clientConfig w s).2 = false := by
  rw [clientConfig_trace]
  split <;> simp [raisedPanic]

/-- C7 (the code departs from the claim): in every world and on every command
line, `Disconnect` is never called and no panic is raised, although the
deferred disconnect is registered on exactly the runs in which the connection
is established (those that build the application context): every exit of
`main` goes through `os.Exit`, which runs no deferred call. -/
theorem C7_disconnect_never_runs (w : World) (args : List (String × FlagValue)) :
    calledDisconnect (main w args).trace = false ∧
    raisedPanic (main w args).trace = false ∧
    registeredDisconnect (main w args).defers = (main w args).app.isSome := by
  have hd : ∀ s, calledDisconnect (serveTrace w s) = false := fun s => (serveTrace_plain w s).1
  have hp : ∀ s, raisedPanic (serveTrace w s) = false := by
    intro s
    have h := clientConfig_no_panic w s
    simp [serveTrace, raisedPanic] at h ⊢
    exact h
  rcases main_cases w args with ⟨hs, hm⟩ | ⟨s, e, hs, h1, ht, hst, hsrv, happ, hdef⟩ |
    ⟨s, e, hs, h1, h2, ht, hst, hsrv, happ, hdef⟩ |
    ⟨s, e, hs, h1, h2, h3, ht, hst, hsrv, happ, hdef⟩ |
    ⟨s, hs, h1, h2, h3, ht, hst, hsrv, happ, hdef⟩
  · rw [hm]
    simp [calledDisconnect, raisedPanic, Final.app, Final.defers, registeredDisconnect]
  · have h := clientConfig_trace_plain w s
    have h' := clientConfig_no_panic w s
    rw [ht, hdef, happ]
    refine ⟨?_, ?_, by simp [registeredDisconnect]⟩
    · simpa [calledDisconnect] using h.2.2
    · simpa [raisedPanic] using h'
  · have h := clientConfig_trace_plain w s
    have h' := clientConfig_no_panic w s
    rw [ht, hdef, happ]
    refine ⟨?_, ?_, by simp [registeredDisconnect]⟩
    · simpa [calledDisconnect] using h.2.2
    · simpa [raisedPanic] using h'
  · rw [ht, hdef, happ]
    refine ⟨?_, ?_, by simp [registeredDisconnect]⟩
    · have := hd s
      simp [calledDisconnect] at this ⊢
      exact this
    · have := hp s
      simp [raisedPanic] at this ⊢
      exact this
  · rw [ht, hdef, happ]
    exact ⟨hd s, hp s, by simp [registeredDisconnect]⟩

/-- Evaluation at a port that is taken: in the sample world the connection is
established and the deferred disconnect is registered, the process ends with
status 1 and `Disconnect` was not called; had the body returned instead of
calling `Fatal`, the runtime would have called it. -/
theorem deferred_disconnect_skipped :
    (main sampleWorld sampleArgs).status = .exit 1 ∧
    (main sampleWorld sampleArgs).defers =
      [.disconnect (theClient sampleWorld sampleSettings) connectCtx, .cancel] ∧
    calledDisconnect (main sampleWorld sampleArgs).trace = false ∧
    calledDisconnect
      (finish sampleWorld
        { mainBody sampleWorld sampleSettings with ending := .returned }).trace = true := by
  decide

/-- C8: on a well-formed command line, every exit of `main` has status 1 and
follows a fatal message on the error logger; that exit is taken when the
client cannot be built, when the connection fails, and after `ListenAndServe`
returns, whatever it returns; the only other behaviour is `ListenAndServe`
not returning; the body never returns and the status is never zero. -/
theorem C8_only_fatal_exits (w : World) (args : List (String × FlagValue)) (s : Settings)
    (hs : parseFlags args = some s) :
    (∀ c, (main w args).status = .exit c →
      c = 1 ∧ endsInFatal (main w args).trace = true) ∧
    (newClientErr w s ≠ none → (main w args).status = .exit 1) ∧
    (newClientErr w s = none → connectErr w s ≠ none → (main w args).status = .exit 1) ∧
    (newClientErr w s = none → connectErr w s = none → ∀ e, serveResult w s = some e →
      (main w args).status = .exit 1 ∧
      (main w args).trace.getLast? = some (.fatal errLog (fmt.Sprint e))) ∧
    ((main w args).status = .running ↔
      newClientErr w s = none ∧ connectErr w s = none ∧ serveResult w s = none) ∧
    (mainBody w s).ending ≠ .returned ∧ (∀ v, (mainBody w s).ending ≠ .panicked v) ∧
    (main w args).status ≠ .exit 0 := by
  have hend : (mainBody w s).ending ≠ .returned ∧ (∀ v, (mainBody w s).ending ≠ .panicked v) := by
    rcases mainBody_ending w s with h | h <;> simp [h]
  rcases main_cases w args with ⟨hs0, hm⟩ | ⟨s0, e, hs0, h1, ht, hst, -⟩ |
    ⟨s0, e, hs0, h1, h2, ht, hst, -⟩ | ⟨s0, e, hs0, h1, h2, h3, ht, hst, -⟩ |
    ⟨s0, hs0, h1, h2, h3, ht, hst, -⟩
  · rw [hs0] at hs; cases hs
  · rw [hs0] at hs; cases hs
    have hf : endsInFatal (main w args).trace = true := by
      rw [ht]
      have := endsInFatal_append ((clientConfig w s).2 ++ [.newClient (clientConfig w s).1]) e
      simpa using this
    refine ⟨fun c hc => ?_, fun _ => hst, fun h => ?_, fun h => ?_, ?_, hend.1, hend.2, ?_⟩
    · rw [hst] at hc; cases hc; exact ⟨rfl, hf⟩
    · rw [h1] at h; cases h
    · rw [h1] at h; cases h
    · rw [hst, h1]; simp
    · rw [hst]; simp
  · rw [hs0] at hs; cases hs
    have hf : endsInFatal (main w args).trace = true := by
      rw [ht]
      have := endsInFatal_append ((clientConfig w s).2 ++
        [.newClient (clientConfig w s).1, .withTimeout (20 * time.Second),
         .connect connectCtx]) e
      simpa using this
    refine ⟨fun c hc => ?_, fun _ => hst, fun _ _ => hst, fun _ h => ?_, ?_, hend.1, hend.2, ?_⟩
    · rw [hst] at hc; cases hc; exact ⟨rfl, hf⟩
    · rw [h2] at h; cases h
    · rw [hst, h2]; simp
    · rw [hst]; simp
  · rw [hs0] at hs; cases hs
    have hf : endsInFatal (main w args).trace = true := by
      rw [ht]; exact endsInFatal_append _ _
    refine ⟨fun c hc => ?_, fun _ => hst, fun _ _ => hst, fun _ _ e' he' => ?_, ?_,
      hend.1, hend.2, ?_⟩
    · rw [hst] at hc; cases hc; exact ⟨rfl, hf⟩
    · rw [h3] at he'; cases he'
      refine ⟨hst, ?_⟩
      rw [ht]; simp
    · rw [hst, h3]; simp
    · rw [hst]; simp
  · rw [hs0] at hs; cases hs
    refine ⟨fun c hc => ?_, fun h => absurd h1 h, fun _ h => absurd h2 h, fun _ _ e' he' => ?_, ?_,
      hend.1, hend.2, ?_⟩
    · rw [hst] at hc; cases hc
    · rw [h3] at he'; cases he'
    · rw [hst]; simp [h1, h2, h3]
    · rw [hst]; simp

/-- C8 where `ListenAndServe` returns nil: the fatal call still runs, prints
the nil error and ends the process with status 1. -/
theorem C8_only_fatal_exits_witness :
    parseFlags sampleArgs = some sampleSettings ∧
    newClientErr nilServeWorld sampleSettings = none ∧
    connectErr nilServeWorld sampleSettings = none ∧
    serveResult nilServeWorld sampleSettings = some none ∧
    (main nilServeWorld sampleArgs).status = .exit 1 ∧
    (main nilServeWorld sampleArgs).trace.getLast? = some (.fatal errLog "<nil>") :=
  ⟨by decide, by decide, by decide, by decide,
    (C8_only_fatal_exits nilServeWorld sampleArgs sampleSettings (by decide)).2.2.2.1
      (by decide) (by decide) none (by decide)⟩

/-- C9: the time bounds of every run are constants: the context passed to
`Connect` has a timeout of 20 seconds, and every server built has an idle
timeout of 60 seconds, a read timeout of 5 seconds and a write timeout of 10
seconds, in nanoseconds as `time.Duration` counts them. -/
theorem C9_fixed_timeouts (w : World) (args : List (String × FlagValue)) :
    (∀ d, Event.withTimeout d ∈ (main w args).trace → d = 20 * time.Second) ∧
    (∀ ctx, Event.connect ctx ∈ (main w args).trace → ctx.timeout = 20 * time.Second) ∧
    (∀ srv, (Event.newServer srv ∈ (main w args).trace ∨
        Event.listenAndServe srv ∈ (main w args).trace ∨ (main w args).srv = some srv) →
      srv.IdleTimeout = 60 * time.Second ∧ srv.ReadTimeout = 5 * time.Second ∧
      srv.WriteTimeout = 10 * time.Second) ∧
    (∀ s, parseFlags args = some s → newClientErr w s = none →
      Event.withTimeout (20 * time.Second) ∈ (main w args).trace ∧
      Event.connect { timeout := 20 * time.Second } ∈ (main w args).trace) ∧
    (20 * time.Second = 20000000000 ∧ 60 * time.Second = 60000000000 ∧
      5 * time.Second = 5000000000 ∧ 10 * time.Second = 10000000000) := by
  have hsrvT : ∀ s, (theServer w s).IdleTimeout = 60 * time.Second ∧
      (theServer w s).ReadTimeout = 5 * time.Second ∧
      (theServer w s).WriteTimeout = 10 * time.Second := by
    intro s
    simp [theServer, newServer, time.Minute]
  have hcfg : ∀ s e, e ∈ (clientConfig w s).2 →
      (∀ d, e ≠ .withTimeout d) ∧ (∀ c, e ≠ .connect c) ∧ (∀ v, e ≠ .newServer v) ∧
      (∀ v, e ≠ .listenAndServe v) := by
    intro s e he
    rcases mem_clientConfig_trace w s e he with h | ⟨_, h | h⟩ <;> subst h <;> simp
  have hconst : (20 * time.Second = 20000000000 ∧ 60 * time.Second = 60000000000 ∧
      5 * time.Second = 5000000000 ∧ 10 * time.Second = 10000000000) := by
    simp [time.Second, time.Millisecond, time.Microsecond, time.Nanosecond]
  have hserve : ∀ s,
      (∀ d, Event.withTimeout d ∈ serveTrace w s → d = 20 * time.Second) ∧
      (∀ ctx, Event.connect ctx ∈ serveTrace w s → ctx.timeout = 20 * time.Second) ∧
      (∀ srv, (Event.newServer srv ∈ serveTrace w s ∨
        Event.listenAndServe srv ∈ serveTrace w s) → srv = theServer w s) ∧
      Event.withTimeout (20 * time.Second) ∈ serveTrace w s ∧
      Event.connect { timeout := 20 * time.Second } ∈ serveTrace w s := by
    intro s
    refine ⟨fun d hd => ?_, fun c hc => ?_, fun v hv => ?_, ?_, ?_⟩
    · simp only [serveTrace, List.mem_append] at hd
      rcases hd with hd | hd
      · exact absurd rfl ((hcfg s _ hd).1 d)
      · simpa using hd
    · simp only [serveTrace, List.mem_append] at hc
      rcases hc with hc | hc
      · exact absurd rfl ((hcfg s _ hc).2.1 c)
      · simp [connectCtx, context.WithTimeout] at hc
        rw [hc]
    · simp only [serveTrace, List.mem_append] at hv
      rcases hv with hv | hv
      · rcases hv with hv | hv
        · exact absurd rfl ((hcfg s _ hv).2.2.1 v)
        · simpa using hv
      · rcases hv with hv | hv
        · exact absurd rfl ((hcfg s _ hv).2.2.2 v)
        · simpa using hv
    · simp [serveTrace]
    · simp [serveTrace, connectCtx, context.WithTimeout]
  refine ⟨fun d hd => ?_, fun c hc => ?_, fun v hv => ?_, fun s hs h1s => ?_, hconst⟩
  · rcases main_cases w args with ⟨hs0, hm⟩ | ⟨s0, e, hs0, h1, ht, -⟩ |
      ⟨s0, e, hs0, h1, h2, ht, -⟩ | ⟨s0, e, hs0, h1, h2, h3, ht, -⟩ |
      ⟨s0, hs0, h1, h2, h3, ht, -⟩
    · rw [hm] at hd; simp at hd
    · rw [ht] at hd
      rcases List.mem_append.1 hd with hd | hd
      · exact absurd rfl ((hcfg s0 _ hd).1 d)
      · simp at hd
    · rw [ht] at hd
      rcases List.mem_append.1 hd with hd | hd
      · exact absurd rfl ((hcfg s0 _ hd).1 d)
      · simpa using hd
    · rw [ht] at hd
      rcases List.mem_append.1 hd with hd | hd
      · exact (hserve s0).1 d hd
      · simp at hd
    · rw [ht] at hd
      exact (hserve s0).1 d hd
  · rcases main_cases w args with ⟨hs0, hm⟩ | ⟨s0, e, hs0, h1, ht, -⟩ |
      ⟨s0, e, hs0, h1, h2, ht, -⟩ | ⟨s0, e, hs0, h1, h2, h3, ht, -⟩ |
      ⟨s0, hs0, h1, h2, h3, ht, -⟩
    · rw [hm] at hc; simp at hc
    · rw [ht] at hc
      rcases List.mem_append.1 hc with hc | hc
      · exact absurd rfl ((hcfg s0 _ hc).2.1 c)
      · simp at hc
    · rw [ht] at hc
      rcases List.mem_append.1 hc with hc | hc
      · exact absurd rfl ((hcfg s0 _ hc).2.1 c)
      · simp [connectCtx, context.WithTimeout] at hc
        rw [hc]
    · rw [ht] at hc
      rcases List.mem_append.1 hc with hc | hc
      · exact (hserve s0).2.1 c hc
      · simp at hc
    · rw [ht] at hc
      exact (hserve s0).2.1 c hc
  · rcases main_cases w args with ⟨hs0, hm⟩ | ⟨s0, e, hs0, h1, ht, hst, hsrv, -⟩ |
      ⟨s0, e, hs0, h1, h2, ht, hst, hsrv, -⟩ | ⟨s0, e, hs0, h1, h2, h3, ht, hst, hsrv, -⟩ |
      ⟨s0, hs0, h1, h2, h3, ht, hst, hsrv, -⟩
    · rw [hm] at hv; simp [Final.srv] at hv
    · rw [ht, hsrv] at hv
      rcases hv with hv | hv | hv
      · rcases List.mem_append.1 hv with hv | hv
        · exact absurd rfl ((hcfg s0 _ hv).2.2.1 v)
        · simp at hv
      · rcases List.mem_append.1 hv with hv | hv
        · exact absurd rfl ((hcfg s0 _ hv).2.2.2 v)
        · simp at hv
      · cases hv
    · rw [ht, hsrv] at hv
      rcases hv with hv | hv | hv
      · rcases List.mem_append.1 hv with hv | hv
        · exact absurd rfl ((hcfg s0 _ hv).2.2.1 v)
        · simp at hv
      · rcases List.mem_append.1 hv with hv | hv
        · exact absurd rfl ((hcfg s0 _ hv).2.2.2 v)
        · simp at hv
      · cases hv
    · rw [ht, hsrv] at hv
      have hv' : v = theServer w s0 := by
        rcases hv with hv | hv | hv
        · rcases List.mem_append.1 hv with hv | hv
          · exact (hserve s0).2.2.1 v (Or.inl hv)
          · simp at hv
        · rcases List.mem_append.1 hv with hv | hv
          · exact (hserve s0).2.2.1 v (Or.inr hv)
          · simp at hv
        · cases hv; rfl
      rw [hv']; exact hsrvT s0
    · rw [ht, hsrv] at hv
      have hv' : v = theServer w s0 := by
        rcases hv with hv | hv | hv
        · exact (hserve s0).2.2.1 v (Or.inl hv)
        · exact (hserve s0).2.2.1 v (Or.inr hv)
        · cases hv; rfl
      rw [hv']; exact hsrvT s0
  · rcases main_cases w args with ⟨hs0, hm⟩ | ⟨s0, e, hs0, h1, ht, -⟩ |
      ⟨s0, e, hs0, h1, h2, ht, -⟩ | ⟨s0, e, hs0, h1, h2, h3, ht, -⟩ |
      ⟨s0, hs0, h1, h2, h3, ht, -⟩
    · rw [hs0] at hs; cases hs
    · rw [hs0] at hs; cases hs
      rw [h1] at h1s; cases h1s
    · rw [ht]
      simp [connectCtx, context.WithTimeout]
    · rw [ht]
      exact ⟨List.mem_append_left _ (hserve s0).2.2.2.1,
        List.mem_append_left _ (hserve s0).2.2.2.2⟩
    · rw [ht]
      exact ⟨(hserve s0).2.2.2.1, (hserve s0).2.2.2.2⟩

/-- C9 in the sample world: the run connects with a 20 second context and
builds a server with the three fixed timeouts. -/
theorem C9_fixed_timeouts_witness :
    parseFlags sampleArgs = some sampleSettings ∧
    newClientErr sampleWorld sampleSettings = none ∧
    (Event.withTimeout (20 * time.Second) ∈ (main sampleWorld sampleArgs).trace ∧
      Event.connect { timeout := 20 * time.Second } ∈ (main sampleWorld sampleArgs).trace) ∧
    (main sampleWorld sampleArgs).srv = some (theServer sampleWorld sampleSettings) ∧
    ((theServer sampleWorld sampleSettings).IdleTimeout = 60 * time.Second ∧
      (theServer sampleWorld sampleSettings).ReadTimeout = 5 * time.Second ∧
      (theServer sampleWorld sampleSettings).WriteTimeout = 10 * time.Second) :=
  ⟨by decide, by decide,
    (C9_fixed_timeouts sampleWorld sampleArgs).2.2.2.1 sampleSettings (by decide) (by decide),
    by decide,
    (C9_fixed_timeouts sampleWorld sampleArgs).2.2.1 (theServer sampleWorld sampleSettings)
      (Or.inr (Or.inr (by decide)))⟩

/-- The flags as `main` registers them hold the defaults. -/
theorem commandLine_eq :
    commandLine = flagsOf
      { serverAddress := "", serverPort := 4000, mongoURI := "mongo://localhost:27017"
        mongoDatabase := "users", enableCreds := false } := by
  rfl

/-- Reading the pointers of a flag set gives back the values it holds. -/
theorem readSettings_flagsOf (s : Settings) : readSettings (flagsOf s) = s := by
  simp [readSettings, flagsOf, derefString, derefInt, derefBool, flagLookup]

/-- Storing a well-formed occurrence succeeds and changes the one flag named. -/
theorem flagSet_flagsOf (s : Settings) (n : String) (v : FlagValue)
    (h : validOccurrence (n, v) = true) :
    flagSet (flagsOf s) n v = some (flagsOf (store s n v)) := by
  cases v with
  | str x =>
    simp [validOccurrence] at h
    rcases h with rfl | rfl | rfl <;> simp [flagsOf, flagSet, store, FlagValue.accepts]
  | int i =>
    simp [validOccurrence] at h
    obtain ⟨rfl, hi⟩ := h
    simp [flagsOf, flagSet, store, FlagValue.accepts, hi]
  | bool b =>
    simp [validOccurrence] at h
    subst h
    simp [flagsOf, flagSet, store, FlagValue.accepts]

/-- Parsing a well-formed command line succeeds, and every flag ends with the
last value supplied for it, or keeps the value it had. -/
theorem flagParse_flagsOf (args : List (String × FlagValue))
    (h : ∀ a ∈ args, validOccurrence a = true) (s : Settings) :
    ∃ s', flagParse (flagsOf s) args = some (flagsOf s') ∧
      s'.serverAddress = (suppliedString args "serverAddr").getD s.serverAddress ∧
      s'.serverPort = (suppliedInt args "serverPort").getD s.serverPort ∧
      s'.mongoURI = (suppliedString args "mongoURI").getD s.mongoURI ∧
      s'.mongoDatabase = (suppliedString args "mongoDB").getD s.mongoDatabase ∧
      s'.enableCreds = (suppliedBool args "enableCreds").getD s.enableCreds := by
  induction args generalizing s with
  | nil => exact ⟨s, rfl, rfl, rfl, rfl, rfl, rfl⟩
  | cons a rest ih =>
    obtain ⟨n, v⟩ := a
    have hv : validOccurrence (n, v) = true := h (n, v) (List.mem_cons_self _ _)
    obtain ⟨s', hp, h1, h2, h3, h4, h5⟩ :=
      ih (fun a ha => h a (List.mem_cons_of_mem _ ha)) (store s n v)
    refine ⟨s', ?_, ?_, ?_, ?_, ?_, ?_⟩
    · simp [flagParse, flagSet_flagsOf s n v hv, hp]
    · rw [h1]
      cases hr : suppliedString rest "serverAddr" with
      | some x => simp [suppliedString, hr]
      | none =>
        cases v with
        | str x =>
          simp [validOccurrence] at hv
          rcases hv with rfl | rfl | rfl <;> simp [suppliedString, hr, store]
        | int i => simp [suppliedString, hr, store]; split <;> rfl
        | bool b => simp [suppliedString, hr, store]; split <;> rfl
    · rw [h2]
      cases hr : suppliedInt rest "serverPort" with
      | some x => simp [suppliedInt, hr]
      | none =>
        cases v with
        | str x =>
          simp [validOccurrence] at hv
          rcases hv with rfl | rfl | rfl <;> simp [suppliedInt, hr, store]
        | int i =>
          simp [validOccurrence] at hv
          obtain ⟨rfl, -⟩ := hv
          simp [suppliedInt, hr, store]
        | bool b => simp [suppliedInt, hr, store]; split <;> rfl
    · rw [h3]
      cases hr : suppliedString rest "mongoURI" with
      | some x => simp [suppliedString, hr]
      | none =>
        cases v with
        | str x =>
          simp [validOccurrence] at hv
          rcases hv with rfl | rfl | rfl <;> simp [suppliedString, hr, store]
        | int i => simp [suppliedString, hr, store]; split <;> rfl
        | bool b => simp [suppliedString, hr, store]; split <;> rfl
    · rw [h4]
      cases hr : suppliedString rest "mongoDB" with
      | some x => simp [suppliedString, hr]
      | none =>
        cases v with
        | str x =>
          simp [validOccurrence] at hv
          rcases hv with rfl | rfl | rfl <;> simp [suppliedString, hr, store]
        | int i => simp [suppliedString, hr, store]; split <;> rfl
        | bool b => simp [suppliedString, hr, store]; split <;> rfl
    · rw [h5]
      cases hr : suppliedBool rest "enableCreds" with
      | some x => simp [suppliedBool, hr]
      | none =>
        cases v with
        | str x =>
          simp [validOccurrence] at hv
          rcases hv with rfl | rfl | rfl <;> simp [suppliedBool, hr, store]
        | int i => simp [suppliedBool, hr, store]; split <;> rfl
        | bool b =>
          simp [validOccurrence] at hv
          subst hv
          simp [suppliedBool, hr, store]

/-- C6: on every well-formed command line over the five flags, parsing
succeeds and each setting `main` reads is the value supplied for its flag, or,
when the flag is not supplied, its default: `serverAddr` the empty string,
`serverPort` 4000, `mongoURI` `mongo://localhost:27017`, `mongoDB` `users`,
`enableCreds` false. -/
theorem C6_settings_from_flags (args : List (String × FlagValue))
    (h : ∀ a ∈ args, validOccurrence a = true) :
    ∃ s, parseFlags args = some s ∧
      s.serverAddress = (suppliedString args "serverAddr").getD "" ∧
      s.serverPort = (suppliedInt args "serverPort").getD 4000 ∧
      s.mongoURI = (suppliedString args "mongoURI").getD "mongo://localhost:27017" ∧
      s.mongoDatabase = (suppliedString args "mongoDB").getD "users" ∧
      s.enableCreds = (suppliedBool args "enableCreds").getD false := by
  obtain ⟨s, hp, hrest⟩ := flagParse_flagsOf args h
    { serverAddress := "", serverPort := 4000, mongoURI := "mongo://localhost:27017"
      mongoDatabase := "users", enableCreds := false }
  refine ⟨s, ?_, hrest⟩
  rw [parseFlags, commandLine_eq, hp]
  simp [readSettings_flagsOf]

/-- C6 on `mixedArgs`: the port is the last one supplied, the database is the
one supplied, the other three settings are the defaults. -/
theorem C6_settings_from_flags_witness :
    (∀ a ∈ mixedArgs, validOccurrence a = true) ∧
    parseFlags mixedArgs =
      some { serverAddress := "", serverPort := 9090, mongoURI := "mongo://localhost:27017"
             mongoDatabase := "staging", enableCreds := false } ∧
    ∃ s, parseFlags mixedArgs = some s ∧
      s.serverAddress = (suppliedString mixedArgs "serverAddr").getD "" ∧
      s.serverPort = (suppliedInt mixedArgs "serverPort").getD 4000 ∧
      s.mongoURI = (suppliedString mixedArgs "mongoURI").getD "mongo://localhost:27017" ∧
      s.mongoDatabase = (suppliedString mixedArgs "mongoDB").getD "users" ∧
      s.enableCreds = (suppliedBool mixedArgs "enableCreds").getD false :=
  ⟨by decide, by decide, C6_settings_from_flags mixedArgs (by decide)⟩

end app
